import Mathlib

/-!
# Battleships server: verification of the session-coordination logic

Shallow embedding of `server.js` from the Battleships repository:
the placement validator, the matchmaking / session state, and the
message handlers, together with proofs of the specification claims.

Board cells are integer pairs `(row, col)`; JavaScript numbers that the
code only ever compares and adds small integers to are modelled as `Int`.
-/

namespace Battleships

/-- A claimed ship: a kind tag and the list of board cells it occupies.
Mirrors the `{type, positions}` records of `setup_complete` messages. -/
structure Ship where
  type : String
  positions : List (Int × Int)
  deriving Repr, DecidableEq

/-- The lookup `expectedShips[ship.type]?.length` of `validateShipPlacement`.
`expectedShips` is a plain object literal, so the bracket lookup falls
through to `Object.prototype` for inherited keys: `"constructor"` resolves to
the `Object` function (whose `.length` is 1), the other inherited methods to
their arities, and `"__proto__"` to `Object.prototype` itself, which has no
`.length` (undefined, like every other unknown kind).  `none` models
`undefined`. -/
def expectedShipLength : String → Option Nat
  | "carrier" => some 5
  | "battleship" => some 4
  | "cruiser" => some 3
  | "submarine" => some 3
  | "destroyer" => some 2
  | "constructor" => some 1
  | "hasOwnProperty" => some 1
  | "isPrototypeOf" => some 1
  | "propertyIsEnumerable" => some 1
  | "toLocaleString" => some 0
  | "toString" => some 0
  | "valueOf" => some 0
  | "__defineGetter__" => some 2
  | "__defineSetter__" => some 2
  | "__lookupGetter__" => some 1
  | "__lookupSetter__" => some 1
  | _ => none

/-- The comparator `(a, b) => a[0] - b[0] || a[1] - b[1]` used by
`validateShipContinuity` to sort positions: lexicographic order on pairs. -/
def lexLe (a b : Int × Int) : Prop :=
  a.1 < b.1 ∨ (a.1 = b.1 ∧ a.2 ≤ b.2)

instance : DecidableRel lexLe := fun a b => by
  unfold lexLe; infer_instance

instance : IsTotal (Int × Int) lexLe :=
  ⟨fun a b => by
    rcases lt_trichotomy a.1 b.1 with h | h | h
    · exact Or.inl (Or.inl h)
    · rcases le_total a.2 b.2 with h2 | h2
      · exact Or.inl (Or.inr ⟨h, h2⟩)
      · exact Or.inr (Or.inr ⟨h.symm, h2⟩)
    · exact Or.inr (Or.inl h)⟩

instance : IsTrans (Int × Int) lexLe :=
  ⟨fun a b c hab hbc => by
    rcases hab with h | ⟨he, h2⟩
    · rcases hbc with h' | ⟨he', _⟩
      · exact Or.inl (h.trans h')
      · exact Or.inl (he' ▸ h)
    · rcases hbc with h' | ⟨he', h2'⟩
      · exact Or.inl (he ▸ h')
      · exact Or.inr ⟨he.trans he', h2.trans h2'⟩⟩

instance : IsAntisymm (Int × Int) lexLe :=
  ⟨fun a b hab hba => by
    rcases hab with h | ⟨he, h2⟩
    · rcases hba with h' | ⟨he', _⟩
      · exact absurd (h.trans h') (lt_irrefl _)
      · exact absurd h (he' ▸ lt_irrefl _)
    · rcases hba with h' | ⟨_, h2'⟩
      · exact absurd h' (he ▸ lt_irrefl _)
      · exact Prod.ext he (le_antisymm h2 h2')⟩

/-- `positions.every(pos => pos[0] === positions[0][0])` on a (sorted) list:
all cells share the first cell's row. -/
def allSameRow : List (Int × Int) → Bool
  | [] => true
  | p0 :: rest => (p0 :: rest).all fun p => p.1 == p0.1

/-- `positions.every(pos => pos[1] === positions[0][1])`: all cells share the
first cell's column. -/
def allSameCol : List (Int × Int) → Bool
  | [] => true
  | p0 :: rest => (p0 :: rest).all fun p => p.2 == p0.2

/-- The continuity loop of `validateShipContinuity`: successive sorted cells
must differ by exactly 1 in the coordinate selected by `f`. -/
def consecutiveBy (f : Int × Int → Int) : List (Int × Int) → Bool
  | [] => true
  | [_] => true
  | a :: b :: rest => (f b - f a == 1) && consecutiveBy f (b :: rest)

/-- `validateShipContinuity(positions)`: sort the cells by the lexicographic
comparator, require them to be all in one row or all in one column, and check
that the relevant coordinates advance by exactly 1.  The horizontal branch is
taken whenever `isHorizontal` holds, as in the source. -/
def validateShipContinuity (positions : List (Int × Int)) : Bool :=
  if positions.length ≤ 1 then true
  else
    let sorted := List.insertionSort lexLe positions
    let isHorizontal := allSameRow sorted
    let isVertical := allSameCol sorted
    if !isHorizontal && !isVertical then false
    else if isHorizontal then consecutiveBy Prod.snd sorted
    else consecutiveBy Prod.fst sorted

/-- `0 <= row < 10 && 0 <= col < 10`, the bounds check of
`validateShipPlacement` (negated there as `row < 0 || row >= 10 || ...`). -/
def inBounds (p : Int × Int) : Bool :=
  decide (0 ≤ p.1) && decide (p.1 < 10) && decide (0 ≤ p.2) && decide (p.2 < 10)

/-- The inner per-position loop of `validateShipPlacement`: walk the ship's
cells, rejecting a cell already in `occupiedCells` or out of bounds, and
accumulate the cells.  Returns the grown occupied set on success. -/
def checkPositions : List (Int × Int) → List (Int × Int) → Option (List (Int × Int))
  | [], occ => some occ
  | p :: ps, occ =>
    if p ∈ occ then none
    else if inBounds p then checkPositions ps (p :: occ)
    else none

/-- The per-ship loop of `validateShipPlacement`: for each ship check the
length against its kind's resolved expected length, run the per-position loop
threading `occupiedCells`, and check continuity.  The source's
`!expectedLength` rejects both `undefined` and `0` (both falsy), hence the
`len = 0` disjunct. -/
def checkShips : List Ship → List (Int × Int) → Bool
  | [], _ => true
  | s :: rest, occ =>
    match expectedShipLength s.type with
    | none => false
    | some len =>
      if len = 0 ∨ s.positions.length ≠ len then false
      else
        match checkPositions s.positions occ with
        | none => false
        | some occ' =>
          if validateShipContinuity s.positions then checkShips rest occ'
          else false

/-- `shipCounts[t]` at the end of the loop: how many submitted ships carry
kind `t`. -/
def countShips (ships : List Ship) (t : String) : Nat :=
  (ships.filter fun s => s.type == t).length

/-- The final count check of `validateShipPlacement`: each required kind
occurs exactly once. -/
def countsOk (ships : List Ship) : Bool :=
  countShips ships "carrier" == 1 &&
  countShips ships "battleship" == 1 &&
  countShips ships "cruiser" == 1 &&
  countShips ships "submarine" == 1 &&
  countShips ships "destroyer" == 1

/-- `validateShipPlacement(ships)`: the per-ship loop starting from an empty
occupied set, followed by the inventory count check. -/
def validateShipPlacement (ships : List Ship) : Bool :=
  checkShips ships [] && countsOk ships

/-! ## Specification-side placement predicate (claim C3)

These definitions follow the words of the spec ("each ship's cells form a
contiguous straight horizontal or vertical run", "no cell is claimed by more
than one ship", "kind multiset is {carrier ×1, ...}"), for comparison with
`validateShipPlacement`. -/

/-- The horizontal run of `n` cells starting at `(r, c)`. -/
def horizRun (r c : Int) : Nat → List (Int × Int)
  | 0 => []
  | n + 1 => (r, c) :: horizRun r (c + 1) n

/-- The vertical run of `n` cells starting at `(r, c)`. -/
def vertRun (r c : Int) : Nat → List (Int × Int)
  | 0 => []
  | n + 1 => (r, c) :: vertRun (r + 1) c n

/-- The spec's required length per inventory kind (5, 4, 3, 3, 2); unlike
the source's prototype-chain lookup, any other kind has no required length. -/
def requiredKindLength : String → Option Nat
  | "carrier" => some 5
  | "battleship" => some 4
  | "cruiser" => some 3
  | "submarine" => some 3
  | "destroyer" => some 2
  | _ => none

/-- The spec's notion of a ship body: its cells are, in some order, a
contiguous straight horizontal or vertical run. -/
def isStraightRun (cells : List (Int × Int)) : Prop :=
  ∃ r c, cells.Perm (horizRun r c cells.length) ∨ cells.Perm (vertRun r c cells.length)

/-- The spec-side acceptance condition of claim C3: kind multiset is exactly
the required inventory, each ship's cell count matches its kind's required
length, all cells in bounds, no cell claimed by two ships, and every ship's
body is a contiguous straight run. -/
def placementSpec (ships : List Ship) : Prop :=
  (↑(ships.map Ship.type) : Multiset String) =
      {"carrier", "battleship", "cruiser", "submarine", "destroyer"} ∧
  (∀ s ∈ ships, requiredKindLength s.type = some s.positions.length) ∧
  (∀ s ∈ ships, ∀ p ∈ s.positions, inBounds p = true) ∧
  List.Pairwise (fun s₁ s₂ : Ship => ∀ p ∈ s₁.positions, p ∉ s₂.positions) ships ∧
  (∀ s ∈ ships, isStraightRun s.positions)

/-! ## Server state

`server.js` keeps three registries: `this.players` (a Map from connection to
player record), `this.waitingPlayers` (an array of player records), and
`this.activeGames` (a Map from game id to game object).  Player records are
shared by reference between these structures, so we model them as a heap of
records keyed by their unique `id` (the `uuidv4()` value, modelled by a fresh
counter), and the registries hold ids.  Connections are modelled by numeric
ids; `openConns` tracks which are open (the `readyState === OPEN` check of
`sendMessage`). -/

/-- A player record, as built in `handleJoinGame`. -/
structure PlayerData where
  id : Nat
  name : String
  ws : Nat
  gameId : Option Nat
  ships : Option (List Ship)
  setupComplete : Bool
  deriving Repr, DecidableEq

/-- A game object, as built in `createGame`.  `players` is the ordered pair
(index 0, index 1) of player-record ids; `currentTurn` is the JS number 0/1. -/
structure GameData where
  id : Nat
  player0 : Nat
  player1 : Nat
  currentTurn : Int
  status : String
  winner : Option Nat
  deriving Repr, DecidableEq

/-- Payloads of outbound envelopes (`sendMessage` type + data fields). -/
inductive Payload where
  | gameStart (gameId : Nat) (opponentName : String) (turnOrder : String)
  | opponentFire (coordinates : Int × Int)
  | shotResult (coordinates : Int × Int) (result : String) (shipSunk : Option String)
  | turnChange (isYourTurn : Bool)
  | gameEnd (winner : String) (reason : Option String)
  | error (message : String)
  deriving Repr, DecidableEq

/-- An outbound envelope: destination connection and payload. -/
structure OutMsg where
  dest : Nat
  payload : Payload
  deriving Repr, DecidableEq

/-- Whole-server state. -/
structure ServerState where
  nextId : Nat
  heap : List PlayerData
  connPlayer : List (Nat × Nat)
  waitingPlayers : List Nat
  activeGames : List GameData
  openConns : List Nat
  deriving Repr, DecidableEq

/-- The empty server, as after the `BattleshipsServer` constructor. -/
def initialState : ServerState := ⟨0, [], [], [], [], []⟩

/-- Dereference a player id in the heap. -/
def heapGet (heap : List PlayerData) (pid : Nat) : Option PlayerData :=
  heap.find? fun p => p.id == pid

/-- Write back a (mutated) player record, by id. -/
def heapSet (heap : List PlayerData) (pd : PlayerData) : List PlayerData :=
  heap.map fun q => if q.id == pd.id then pd else q

/-- Fallback record for unreachable dangling dereferences. -/
def dummyPlayer : PlayerData := ⟨0, "", 0, none, none, false⟩

/-- Dereference a player id, with the dummy fallback. -/
def getPlayer (heap : List PlayerData) (pid : Nat) : PlayerData :=
  (heapGet heap pid).getD dummyPlayer

/-- `this.players.get(ws)`. -/
def connGet (m : List (Nat × Nat)) (ws : Nat) : Option Nat :=
  (m.find? fun e => e.1 == ws).map Prod.snd

/-- `this.players.set(ws, player)`: replace any entry for `ws`. -/
def connSet (m : List (Nat × Nat)) (ws pid : Nat) : List (Nat × Nat) :=
  (ws, pid) :: m.filter fun e => e.1 ≠ ws

/-- `this.players.delete(ws)`. -/
def connDel (m : List (Nat × Nat)) (ws : Nat) : List (Nat × Nat) :=
  m.filter fun e => e.1 ≠ ws

/-- `this.activeGames.get(gameId)`. -/
def gamesGet (gs : List GameData) (gid : Nat) : Option GameData :=
  gs.find? fun g => g.id == gid

/-- `this.activeGames.set(gameId, game)` (also models in-place mutation of a
game object held in the map). -/
def gamesInsert (gs : List GameData) (g : GameData) : List GameData :=
  g :: gs.filter fun q => q.id ≠ g.id

/-- `this.activeGames.delete(gameId)`. -/
def gamesDel (gs : List GameData) (gid : Nat) : List GameData :=
  gs.filter fun q => q.id ≠ gid

/-- `game.players.findIndex(p => p.id === pid)` (−1 when absent). -/
def playerIndexOf (g : GameData) (pid : Nat) : Int :=
  if g.player0 == pid then 0 else if g.player1 == pid then 1 else -1

/-- `game.players[1 - playerIndex]` for `playerIndex` ∈ {0, 1}. -/
def otherId (g : GameData) (idx : Int) : Nat :=
  if idx == 0 then g.player1 else g.player0

/-- `sendMessage(ws, type, data)`: delivered only when the socket is open
(`ws.readyState === WebSocket.OPEN`); `opens` is the set of open sockets. -/
def sendMessage (opens : List Nat) (ws : Nat) (p : Payload) : List OutMsg :=
  if ws ∈ opens then [⟨ws, p⟩] else []

/-- `sendError(ws, message)`. -/
def sendError (opens : List Nat) (ws : Nat) (msg : String) : List OutMsg :=
  sendMessage opens ws (.error msg)

/-- `checkAllShipsSunk(ships, defenderWs)`: the source's stub that always
returns `false` ("Implement based on your game state tracking needs"). -/
def checkAllShipsSunk (ships : Option (List Ship)) (defenderWs : Nat) : Bool :=
  false

/-- `createGame(player1, player2)`: fresh game id, player1 at index 0
(told `turnOrder: "first"`), player2 at index 1 (`"second"`), status `setup`,
`currentTurn` 0; both records' `gameId` fields are set. -/
def createGame (st : ServerState) (p1 p2 : Nat) : ServerState × List OutMsg :=
  let gid := st.nextId
  let game : GameData := ⟨gid, p1, p2, 0, "setup", none⟩
  let p1d := { getPlayer st.heap p1 with gameId := some gid }
  let p2d := { getPlayer st.heap p2 with gameId := some gid }
  let st' : ServerState :=
    { st with
      nextId := gid + 1
      heap := heapSet (heapSet st.heap p1d) p2d
      activeGames := gamesInsert st.activeGames game }
  (st',
    sendMessage st'.openConns p1d.ws (.gameStart gid p2d.name "first") ++
    sendMessage st'.openConns p2d.ws (.gameStart gid p1d.name "second"))

/-- `handleJoinGame(ws, message)`: create a fresh player record, register it
for the connection, then either pair it with the oldest waiter
(`waitingPlayers.shift()`, the new arrival passed as `player1`) or enqueue
it. -/
def handleJoinGame (st : ServerState) (ws : Nat) (playerName : String) :
    ServerState × List OutMsg :=
  let pid := st.nextId
  let pd : PlayerData := ⟨pid, playerName, ws, none, none, false⟩
  let st' : ServerState :=
    { st with
      nextId := st.nextId + 1
      heap := st.heap ++ [pd]
      connPlayer := connSet st.connPlayer ws pid }
  match st'.waitingPlayers with
  | opponent :: rest => createGame { st' with waitingPlayers := rest } pid opponent
  | [] => ({ st' with waitingPlayers := st'.waitingPlayers ++ [pid] }, [])

/-- `handleSetupComplete(ws, message)`: validate the fleet, store it on the
player record, and when both records are `setupComplete` move the game to
`in_progress` and announce the turn to both players. -/
def handleSetupComplete (st : ServerState) (ws : Nat) (ships : List Ship) :
    ServerState × List OutMsg :=
  match connGet st.connPlayer ws with
  | none => (st, sendError st.openConns ws "Player not in a game")
  | some pid =>
    match heapGet st.heap pid with
    | none => (st, sendError st.openConns ws "Player not in a game")
    | some player =>
      match player.gameId with
      | none => (st, sendError st.openConns ws "Player not in a game")
      | some gid =>
        match gamesGet st.activeGames gid with
        | none => (st, sendError st.openConns ws "Game not found")
        | some game =>
          if ¬ validateShipPlacement ships then
            (st, sendError st.openConns ws "Invalid ship placement")
          else
            let player' := { player with ships := some ships, setupComplete := true }
            let st' := { st with heap := heapSet st.heap player' }
            let p0 := getPlayer st'.heap game.player0
            let p1 := getPlayer st'.heap game.player1
            if p0.setupComplete && p1.setupComplete then
              let game' := { game with status := "in_progress" }
              let st'' := { st' with activeGames := gamesInsert st'.activeGames game' }
              (st'',
                sendMessage st''.openConns p0.ws (.turnChange (0 == game'.currentTurn)) ++
                sendMessage st''.openConns p1.ws (.turnChange (1 == game'.currentTurn)))
            else (st', [])

/-- `handleFire(ws, message)`: reject unless the sender is in a game whose
status is `in_progress` and it is the sender's turn; on acceptance only relay
`opponent_fire` to the other player — no state is written. -/
def handleFire (st : ServerState) (ws : Nat) (coordinates : Int × Int) :
    ServerState × List OutMsg :=
  match connGet st.connPlayer ws with
  | none => (st, sendError st.openConns ws "Player not in a game")
  | some pid =>
    match heapGet st.heap pid with
    | none => (st, sendError st.openConns ws "Player not in a game")
    | some player =>
      match player.gameId with
      | none => (st, sendError st.openConns ws "Player not in a game")
      | some gid =>
        match gamesGet st.activeGames gid with
        | none => (st, sendError st.openConns ws "Game not in progress")
        | some game =>
          if game.status ≠ "in_progress" then
            (st, sendError st.openConns ws "Game not in progress")
          else
            let playerIndex := playerIndexOf game pid
            if playerIndex ≠ game.currentTurn then
              (st, sendError st.openConns ws "Not your turn")
            else
              let opponent := getPlayer st.heap (otherId game playerIndex)
              (st, sendMessage st.openConns opponent.ws (.opponentFire coordinates))

/-- `endGame(game, winnerId)`: mark the game finished with its winner, send
`game_end` (winner's name, no reason) to both players, then delete the game
from the active map.  Player records are not touched. -/
def endGame (st : ServerState) (game : GameData) (winnerId : Nat) :
    ServerState × List OutMsg :=
  let game' := { game with status := "finished", winner := some winnerId }
  let st' := { st with activeGames := gamesInsert st.activeGames game' }
  let winnerPid := if game'.player0 == winnerId then game'.player0 else game'.player1
  let loserPid := if game'.player0 == winnerId then game'.player1 else game'.player0
  let winner := getPlayer st'.heap winnerPid
  let loser := getPlayer st'.heap loserPid
  let msgs :=
    sendMessage st'.openConns winner.ws (.gameEnd winner.name none) ++
    sendMessage st'.openConns loser.ws (.gameEnd winner.name none)
  ({ st' with activeGames := gamesDel st'.activeGames game'.id }, msgs)

/-- `handleFireResult(ws, message)`: relay `shot_result` to the other member,
then either end the game (only if `checkAllShipsSunk`, i.e. never) or flip
`currentTurn` and announce `turn_change` to both members.  No check of the
game status or of whose turn it is.  A sender whose record is not a member of
its game would crash the handler (`game.players[2].ws`); the crash is caught
by the message-loop `try`/`catch`, which answers `Invalid message format`. -/
def handleFireResult (st : ServerState) (ws : Nat) (coordinates : Int × Int)
    (result : String) (shipSunk : Option String) : ServerState × List OutMsg :=
  match connGet st.connPlayer ws with
  | none => (st, sendError st.openConns ws "Player not in a game")
  | some pid =>
    match heapGet st.heap pid with
    | none => (st, sendError st.openConns ws "Player not in a game")
    | some player =>
      match player.gameId with
      | none => (st, sendError st.openConns ws "Player not in a game")
      | some gid =>
        match gamesGet st.activeGames gid with
        | none => (st, sendError st.openConns ws "Game not found")
        | some game =>
          let playerIndex := playerIndexOf game pid
          if playerIndex == -1 then
            (st, sendError st.openConns ws "Invalid message format")
          else
            let opponentId := otherId game playerIndex
            let opponent := getPlayer st.heap opponentId
            let relay := sendMessage st.openConns opponent.ws (.shotResult coordinates result shipSunk)
            if result == "hit" && checkAllShipsSunk player.ships ws then
              let (st', endMsgs) := endGame st game opponentId
              (st', relay ++ endMsgs)
            else
              let game' := { game with currentTurn := 1 - game.currentTurn }
              let st' := { st with activeGames := gamesInsert st.activeGames game' }
              let p0 := getPlayer st'.heap game'.player0
              let p1 := getPlayer st'.heap game'.player1
              (st',
                relay ++
                sendMessage st'.openConns p0.ws (.turnChange (0 == game'.currentTurn)) ++
                sendMessage st'.openConns p1.ws (.turnChange (1 == game'.currentTurn)))

/-- `handleDisconnection(ws)`: remove the player from the wait queue (first
occurrence); if its `gameId` names a live game, notify the other member with
`game_end{reason: "opponent_disconnected"}` and delete the game; finally drop
the connection's registry entry.  The survivor's record is not modified. -/
def handleDisconnection (st : ServerState) (ws : Nat) : ServerState × List OutMsg :=
  match connGet st.connPlayer ws with
  | none => (st, [])
  | some pid =>
    match heapGet st.heap pid with
    | none => (st, [])
    | some player =>
      let st₁ := { st with waitingPlayers := st.waitingPlayers.erase pid }
      let (st₂, out) :=
        match player.gameId with
        | none => (st₁, [])
        | some gid =>
          match gamesGet st₁.activeGames gid with
          | none => (st₁, [])
          | some game =>
            let oppId : Option Nat :=
              if game.player0 ≠ pid then some game.player0
              else if game.player1 ≠ pid then some game.player1
              else none
            let out :=
              match oppId with
              | some oid =>
                let opp := getPlayer st₁.heap oid
                sendMessage st₁.openConns opp.ws (.gameEnd opp.name (some "opponent_disconnected"))
              | none => []
            ({ st₁ with activeGames := gamesDel st₁.activeGames gid }, out)
      ({ st₂ with connPlayer := connDel st₂.connPlayer ws }, out)

/-- Inbound envelopes (client → server). -/
inductive InMsg where
  | joinGame (playerName : String)
  | setupDone (ships : List Ship)
  | fire (coordinates : Int × Int)
  | fireResult (coordinates : Int × Int) (result : String) (shipSunk : Option String)
  | unknown
  deriving Repr, DecidableEq

/-- `handleClientMessage`: dispatch by the envelope's `type`. -/
def handleClientMessage (st : ServerState) (ws : Nat) : InMsg → ServerState × List OutMsg
  | .joinGame n => handleJoinGame st ws n
  | .setupDone ships => handleSetupComplete st ws ships
  | .fire c => handleFire st ws c
  | .fireResult c r s => handleFireResult st ws c r s
  | .unknown => (st, sendError st.openConns ws "Unknown message type")

/-- Transport-level events: connection open, inbound message, connection
close (the close handler runs `handleDisconnection` after the socket left the
open state). -/
inductive Event where
  | connect (ws : Nat)
  | message (ws : Nat) (msg : InMsg)
  | close (ws : Nat)
  deriving Repr, DecidableEq

/-- One event step of the server. -/
def step (st : ServerState) : Event → ServerState × List OutMsg
  | .connect ws => ({ st with openConns := ws :: st.openConns }, [])
  | .message ws m => handleClientMessage st ws m
  | .close ws => handleDisconnection { st with openConns := st.openConns.erase ws } ws

/-- Run a trace of events, collecting all outbound envelopes. -/
def run (st : ServerState) : List Event → ServerState × List OutMsg
  | [] => (st, [])
  | e :: es =>
    let (st', out) := step st e
    let (st'', out') := run st' es
    (st'', out ++ out')

/-! ## Concrete fixtures

Small executable states used by witnesses and counterexamples. -/

/-- A legal demo fleet: all five kinds, straight in-bounds disjoint runs. -/
def goodFleet : List Ship :=
  [⟨"carrier", [(0, 0), (0, 1), (0, 2), (0, 3), (0, 4)]⟩,
   ⟨"battleship", [(1, 0), (1, 1), (1, 2), (1, 3)]⟩,
   ⟨"cruiser", [(2, 0), (2, 1), (2, 2)]⟩,
   ⟨"submarine", [(3, 0), (3, 1), (3, 2)]⟩,
   ⟨"destroyer", [(4, 0), (4, 1)]⟩]

/-- The demo fleet plus a phantom sixth ship whose kind is the inherited
`Object.prototype` key `"constructor"`. -/
def phantomFleet : List Ship :=
  goodFleet ++ [⟨"constructor", [(9, 9)]⟩]

/-- Alice (connection 10) joins first, Bob (connection 20) joins second:
they are paired into game 2 with Bob at index 0. -/
def pairTrace : List Event :=
  [.connect 10, .connect 20,
   .message 10 (.joinGame "alice"), .message 20 (.joinGame "bob")]

/-- After the pairing, both players submit the demo fleet. -/
def setupTrace : List Event :=
  pairTrace ++ [.message 10 (.setupDone goodFleet), .message 20 (.setupDone goodFleet)]

/-- Players matched, game 2 still in `setup`. -/
def matchedState : ServerState := (run initialState pairTrace).1

/-- Game 2 `in_progress`; Bob (id 1, index 0) is on turn. -/
def liveState : ServerState := (run initialState setupTrace).1

/-- The live game record of `liveState`. -/
def liveGame : GameData := ⟨2, 1, 0, 0, "in_progress", none⟩

/-- The game record of `matchedState`, still in `setup`. -/
def setupGame : GameData := ⟨2, 1, 0, 0, "setup", none⟩

/-- A lone waiter (id 0) on connection 10; connection 20 open but unjoined. -/
def waiterState : ServerState :=
  (run initialState [.connect 10, .message 10 (.joinGame "waiter"), .connect 20]).1

/-- One connection that already performed a `join_game`. -/
def oneJoinState : ServerState :=
  (run initialState [.connect 10, .message 10 (.joinGame "a")]).1

end Battleships

namespace Battleships

/-! ## Straight runs: membership, sortedness, and the continuity checks -/

theorem mem_horizRun (q : Int × Int) (r : Int) :
    ∀ (n : Nat) (c : Int), q ∈ horizRun r c n ↔ (q.1 = r ∧ c ≤ q.2 ∧ q.2 < c + n)
  | 0, c => by
    simp only [horizRun, List.not_mem_nil, false_iff]
    omega
  | n + 1, c => by
    simp only [horizRun, List.mem_cons, mem_horizRun q r n (c + 1)]
    constructor
    · rintro (rfl | ⟨h1, h2, h3⟩)
      · exact ⟨rfl, le_refl _, by omega⟩
      · exact ⟨h1, by omega, by omega⟩
    · rintro ⟨h1, h2, h3⟩
      by_cases hc : q.2 = c
      · exact Or.inl (Prod.ext h1 hc)
      · exact Or.inr ⟨h1, by omega, by omega⟩

theorem mem_vertRun (q : Int × Int) (c : Int) :
    ∀ (n : Nat) (r : Int), q ∈ vertRun r c n ↔ (q.2 = c ∧ r ≤ q.1 ∧ q.1 < r + n)
  | 0, r => by
    simp only [vertRun, List.not_mem_nil, false_iff]
    omega
  | n + 1, r => by
    simp only [vertRun, List.mem_cons, mem_vertRun q c n (r + 1)]
    constructor
    · rintro (rfl | ⟨h1, h2, h3⟩)
      · exact ⟨rfl, le_refl _, by omega⟩
      · exact ⟨h1, by omega, by omega⟩
    · rintro ⟨h1, h2, h3⟩
      by_cases hr : q.1 = r
      · exact Or.inl (Prod.ext hr h1)
      · exact Or.inr ⟨h1, by omega, by omega⟩

theorem sorted_horizRun (r : Int) :
    ∀ (n : Nat) (c : Int), List.Sorted lexLe (horizRun r c n)
  | 0, _ => List.sorted_nil
  | n + 1, c => by
    rw [horizRun]
    refine List.sorted_cons.mpr ⟨?_, sorted_horizRun r n (c + 1)⟩
    intro q hq
    rcases (mem_horizRun q r n (c + 1)).1 hq with ⟨h1, h2, -⟩
    exact Or.inr ⟨h1.symm, by omega⟩

theorem sorted_vertRun (c : Int) :
    ∀ (n : Nat) (r : Int), List.Sorted lexLe (vertRun r c n)
  | 0, _ => List.sorted_nil
  | n + 1, r => by
    rw [vertRun]
    refine List.sorted_cons.mpr ⟨?_, sorted_vertRun c n (r + 1)⟩
    intro q hq
    rcases (mem_vertRun q c n (r + 1)).1 hq with ⟨-, h2, -⟩
    exact Or.inl (by omega)

theorem nodup_horizRun (r : Int) :
    ∀ (n : Nat) (c : Int), (horizRun r c n).Nodup
  | 0, _ => List.nodup_nil
  | n + 1, c => by
    rw [horizRun]
    refine List.nodup_cons.mpr ⟨?_, nodup_horizRun r n (c + 1)⟩
    intro hmem
    rcases (mem_horizRun _ r n (c + 1)).1 hmem with ⟨-, h2, -⟩
    omega

theorem nodup_vertRun (c : Int) :
    ∀ (n : Nat) (r : Int), (vertRun r c n).Nodup
  | 0, _ => List.nodup_nil
  | n + 1, r => by
    rw [vertRun]
    refine List.nodup_cons.mpr ⟨?_, nodup_vertRun c n (r + 1)⟩
    intro hmem
    rcases (mem_vertRun _ c n (r + 1)).1 hmem with ⟨-, h2, -⟩
    omega

theorem allSameRow_horizRun (r c : Int) (n : Nat) :
    allSameRow (horizRun r c n) = true := by
  cases n with
  | zero => rfl
  | succ m =>
    rw [horizRun, allSameRow, List.all_eq_true]
    intro p hp
    rcases List.mem_cons.mp hp with rfl | hp'
    · simp
    · rcases (mem_horizRun p r m (c + 1)).1 hp' with ⟨h1, -, -⟩
      simpa using h1

theorem allSameCol_vertRun (r c : Int) (n : Nat) :
    allSameCol (vertRun r c n) = true := by
  cases n with
  | zero => rfl
  | succ m =>
    rw [vertRun, allSameCol, List.all_eq_true]
    intro p hp
    rcases List.mem_cons.mp hp with rfl | hp'
    · simp
    · rcases (mem_vertRun p c m (r + 1)).1 hp' with ⟨h1, -, -⟩
      simpa using h1

theorem allSameRow_vertRun_false (r c : Int) (n : Nat) :
    allSameRow (vertRun r c (n + 2)) = false := by
  have h1 : vertRun r c (n + 2) = (r, c) :: (r + 1, c) :: vertRun (r + 1 + 1) c n := rfl
  rw [h1, allSameRow]
  refine (List.all_eq_false).mpr ⟨(r + 1, c), ?_, ?_⟩
  · exact List.mem_cons.mpr (Or.inr (List.mem_cons_self _ _))
  · simp only [Bool.not_eq_true, beq_eq_false_iff_ne, ne_eq]
    omega

theorem consecutiveBy_snd_horizRun (r : Int) :
    ∀ (n : Nat) (c : Int), consecutiveBy Prod.snd (horizRun r c n) = true
  | 0, _ => rfl
  | 1, _ => rfl
  | n + 2, c => by
    have h1 : horizRun r c (n + 2) = (r, c) :: horizRun r (c + 1) (n + 1) := rfl
    have h2 : horizRun r (c + 1) (n + 1) = (r, c + 1) :: horizRun r (c + 1 + 1) n := rfl
    rw [h1, h2, consecutiveBy, ← h2]
    simp only [Bool.and_eq_true]
    refine ⟨?_, consecutiveBy_snd_horizRun r (n + 1) (c + 1)⟩
    simp only [beq_iff_eq]
    omega

theorem consecutiveBy_fst_vertRun (c : Int) :
    ∀ (n : Nat) (r : Int), consecutiveBy Prod.fst (vertRun r c n) = true
  | 0, _ => rfl
  | 1, _ => rfl
  | n + 2, r => by
    have h1 : vertRun r c (n + 2) = (r, c) :: vertRun (r + 1) c (n + 1) := rfl
    have h2 : vertRun (r + 1) c (n + 1) = (r + 1, c) :: vertRun (r + 1 + 1) c n := rfl
    rw [h1, h2, consecutiveBy, ← h2]
    simp only [Bool.and_eq_true]
    refine ⟨?_, consecutiveBy_fst_vertRun c (n + 1) (r + 1)⟩
    simp only [beq_iff_eq]
    omega

/-- A list passing the (sorted) same-row and consecutive-column checks is
literally the horizontal run starting at its head. -/
theorem eq_horizRun_of_checks :
    ∀ (l : List (Int × Int)) (p : Int × Int),
      allSameRow (p :: l) = true → consecutiveBy Prod.snd (p :: l) = true →
      p :: l = horizRun p.1 p.2 (l.length + 1)
  | [], p, _, _ => rfl
  | q :: l, p, hrow, hcons => by
    have hrow' : ∀ x ∈ p :: q :: l, x.1 = p.1 := by
      rw [allSameRow, List.all_eq_true] at hrow
      intro x hx
      simpa using hrow x hx
    have hq1 : q.1 = p.1 := hrow' q (List.mem_cons.mpr (Or.inr (List.mem_cons_self _ _)))
    have hsplit : (Prod.snd q - Prod.snd p == 1) = true ∧
        consecutiveBy Prod.snd (q :: l) = true := by
      rw [consecutiveBy, Bool.and_eq_true] at hcons
      exact hcons
    have hq2 : q.2 = p.2 + 1 := by
      have := hsplit.1
      simp only [beq_iff_eq] at this
      omega
    have hrowq : allSameRow (q :: l) = true := by
      rw [allSameRow, List.all_eq_true]
      intro x hx
      have : x.1 = p.1 := hrow' x (List.mem_cons.mpr (Or.inr hx))
      simp [this, hq1]
    have ih := eq_horizRun_of_checks l q hrowq hsplit.2
    have hrun : horizRun p.1 p.2 (l.length + 1 + 1) =
        (p.1, p.2) :: horizRun p.1 (p.2 + 1) (l.length + 1) := rfl
    simp only [List.length_cons]
    rw [hrun]
    congr 1
    rw [ih, hq1, hq2]

/-- A list passing the (sorted) same-column and consecutive-row checks is
literally the vertical run starting at its head. -/
theorem eq_vertRun_of_checks :
    ∀ (l : List (Int × Int)) (p : Int × Int),
      allSameCol (p :: l) = true → consecutiveBy Prod.fst (p :: l) = true →
      p :: l = vertRun p.1 p.2 (l.length + 1)
  | [], p, _, _ => rfl
  | q :: l, p, hcol, hcons => by
    have hcol' : ∀ x ∈ p :: q :: l, x.2 = p.2 := by
      rw [allSameCol, List.all_eq_true] at hcol
      intro x hx
      simpa using hcol x hx
    have hq2 : q.2 = p.2 := hcol' q (List.mem_cons.mpr (Or.inr (List.mem_cons_self _ _)))
    have hsplit : (Prod.fst q - Prod.fst p == 1) = true ∧
        consecutiveBy Prod.fst (q :: l) = true := by
      rw [consecutiveBy, Bool.and_eq_true] at hcons
      exact hcons
    have hq1 : q.1 = p.1 + 1 := by
      have := hsplit.1
      simp only [beq_iff_eq] at this
      omega
    have hcolq : allSameCol (q :: l) = true := by
      rw [allSameCol, List.all_eq_true]
      intro x hx
      have : x.2 = p.2 := hcol' x (List.mem_cons.mpr (Or.inr hx))
      simp [this, hq2]
    have ih := eq_vertRun_of_checks l q hcolq hsplit.2
    have hrun : vertRun p.1 p.2 (l.length + 1 + 1) =
        (p.1, p.2) :: vertRun (p.1 + 1) p.2 (l.length + 1) := rfl
    simp only [List.length_cons]
    rw [hrun]
    congr 1
    rw [ih, hq1, hq2]

/-- The continuity validator accepts exactly the straight runs. -/
theorem validateShipContinuity_iff (cells : List (Int × Int)) :
    validateShipContinuity cells = true ↔ isStraightRun cells := by
  by_cases hlen : cells.length ≤ 1
  · constructor
    · rintro -
      rcases cells with - | ⟨p, - | ⟨q, l⟩⟩
      · exact ⟨0, 0, Or.inl (List.Perm.refl _)⟩
      · exact ⟨p.1, p.2, Or.inl (List.Perm.refl _)⟩
      · simp only [List.length_cons] at hlen
        omega
    · rintro -
      unfold validateShipContinuity
      rw [if_pos hlen]
  · have hlen2 : 2 ≤ cells.length := by omega
    unfold validateShipContinuity
    rw [if_neg hlen]
    dsimp only
    constructor
    · intro h
      obtain ⟨p, l, hpl⟩ : ∃ p l, List.insertionSort lexLe cells = p :: l := by
        cases hs : List.insertionSort lexLe cells with
        | nil =>
          exfalso
          have hl := List.length_insertionSort lexLe cells
          rw [hs] at hl
          simp only [List.length_nil] at hl
          omega
        | cons p l => exact ⟨p, l, rfl⟩
      have hlencells : cells.length = l.length + 1 := by
        have hl := List.length_insertionSort lexLe cells
        rw [hpl] at hl
        simpa using hl.symm
      have hperm : cells.Perm (p :: l) :=
        (hpl ▸ List.perm_insertionSort lexLe cells).symm
      by_cases hH : allSameRow (List.insertionSort lexLe cells) = true
      · rw [if_neg (by simp [hH]), if_pos hH] at h
        have hform := eq_horizRun_of_checks l p
          (by rw [← hpl]; exact hH) (by rw [← hpl]; exact h)
        refine ⟨p.1, p.2, Or.inl ?_⟩
        rw [hlencells]
        refine hperm.trans ?_
        rw [hform]
      · have hV : allSameCol (List.insertionSort lexLe cells) = true := by
          by_contra hV
          rw [if_pos (by simp [hH, hV])] at h
          exact absurd h (by simp)
        rw [if_neg (by simp [hV]), if_neg hH] at h
        have hform := eq_vertRun_of_checks l p
          (by rw [← hpl]; exact hV) (by rw [← hpl]; exact h)
        refine ⟨p.1, p.2, Or.inr ?_⟩
        rw [hlencells]
        refine hperm.trans ?_
        rw [hform]
    · rintro ⟨r, c, hrun | hrun⟩
      · have hsorted : List.insertionSort lexLe cells = horizRun r c cells.length :=
          List.eq_of_perm_of_sorted ((List.perm_insertionSort lexLe cells).trans hrun)
            (List.sorted_insertionSort lexLe cells) (sorted_horizRun r cells.length c)
        rw [hsorted, allSameRow_horizRun]
        rw [if_neg (by simp), if_pos rfl]
        exact consecutiveBy_snd_horizRun r cells.length c
      · obtain ⟨k, hk⟩ : ∃ k, cells.length = k + 2 := ⟨cells.length - 2, by omega⟩
        have hsorted : List.insertionSort lexLe cells = vertRun r c cells.length :=
          List.eq_of_perm_of_sorted ((List.perm_insertionSort lexLe cells).trans hrun)
            (List.sorted_insertionSort lexLe cells) (sorted_vertRun c cells.length r)
        rw [hsorted, hk, allSameRow_vertRun_false, allSameCol_vertRun]
        rw [if_neg (by simp), if_neg (by simp)]
        exact consecutiveBy_fst_vertRun c (k + 2) r

/-- The per-position loop succeeds exactly on in-bounds, duplicate-free cell
lists disjoint from the incoming occupied set, and returns the cells pushed
(in reverse) onto that set. -/
theorem checkPositions_eq_some :
    ∀ (ps occ occ' : List (Int × Int)),
      checkPositions ps occ = some occ' ↔
        ((∀ p ∈ ps, inBounds p = true) ∧ ps.Nodup ∧ (∀ p ∈ ps, p ∉ occ) ∧
          occ' = ps.reverse ++ occ)
  | [], occ, occ' => by
    rw [checkPositions]
    constructor
    · intro h
      refine ⟨by simp, List.nodup_nil, by simp, ?_⟩
      simpa using (Option.some.inj h).symm
    · rintro ⟨-, -, -, h⟩
      simp [h]
  | p :: ps, occ, occ' => by
    rw [checkPositions]
    by_cases hmem : p ∈ occ
    · rw [if_pos hmem]
      constructor
      · intro h
        exact absurd h (by simp)
      · rintro ⟨-, -, hdisj, -⟩
        exact absurd hmem (hdisj p (List.mem_cons_self _ _))
    · rw [if_neg hmem]
      by_cases hb : inBounds p = true
      · rw [if_pos hb, checkPositions_eq_some ps (p :: occ) occ']
        constructor
        · rintro ⟨hbs, hnd, hdisj, heq⟩
          refine ⟨?_, ?_, ?_, ?_⟩
          · intro q hq
            rcases List.mem_cons.mp hq with rfl | hq'
            · exact hb
            · exact hbs q hq'
          · refine List.nodup_cons.mpr ⟨?_, hnd⟩
            intro hp
            exact (hdisj p hp) (List.mem_cons_self _ _)
          · intro q hq
            rcases List.mem_cons.mp hq with rfl | hq'
            · exact hmem
            · intro hqocc
              exact (hdisj q hq') (List.mem_cons.mpr (Or.inr hqocc))
          · rw [heq]
            simp
        · rintro ⟨hbs, hnd, hdisj, heq⟩
          obtain ⟨hp_nin, hnd'⟩ := List.nodup_cons.mp hnd
          refine ⟨fun q hq => hbs q (List.mem_cons.mpr (Or.inr hq)), hnd', ?_, ?_⟩
          · intro q hq
            rw [List.mem_cons]
            rintro (rfl | hqo)
            · exact hp_nin hq
            · exact hdisj q (List.mem_cons.mpr (Or.inr hq)) hqo
          · rw [heq]
            simp
      · rw [if_neg hb]
        constructor
        · intro h
          exact absurd h (by simp)
        · rintro ⟨hbs, -, -, -⟩
          exact absurd (hbs p (List.mem_cons_self _ _)) hb

/-- The per-ship loop succeeds exactly when every ship individually passes
the kind-length, bounds and continuity checks, the flattened cell list is
duplicate-free, and no cell collides with the incoming occupied set. -/
theorem checkShips_eq_true :
    ∀ (ships : List Ship) (occ : List (Int × Int)),
      checkShips ships occ = true ↔
        ((∀ s ∈ ships,
            expectedShipLength s.type = some s.positions.length ∧
            s.positions.length ≠ 0 ∧
            (∀ p ∈ s.positions, inBounds p = true) ∧
            validateShipContinuity s.positions = true) ∧
          (ships.flatMap Ship.positions).Nodup ∧
          (∀ p ∈ ships.flatMap Ship.positions, p ∉ occ))
  | [], occ => by simp [checkShips]
  | s :: rest, occ => by
    cases hexp : expectedShipLength s.type with
    | none =>
      rw [checkShips]
      simp only [hexp, Bool.false_eq_true, false_iff]
      rintro ⟨hper, -, -⟩
      have h := (hper s (List.mem_cons_self _ _)).1
      rw [hexp] at h
      exact Option.noConfusion h
    | some len =>
      rw [checkShips]
      simp only [hexp]
      by_cases hguard : len = 0 ∨ s.positions.length ≠ len
      · rw [if_pos hguard]
        simp only [Bool.false_eq_true, false_iff]
        rintro ⟨hper, -, -⟩
        obtain ⟨h1, h2, -, -⟩ := hper s (List.mem_cons_self _ _)
        rw [hexp] at h1
        have heq := Option.some.inj h1
        rcases hguard with h0 | hne
        · exact h2 (heq.symm.trans h0)
        · exact hne heq.symm
      · have h0 : len ≠ 0 := fun h => hguard (Or.inl h)
        have hlen : s.positions.length = len := by
          by_contra h
          exact hguard (Or.inr h)
        rw [if_neg hguard]
        cases hcp : checkPositions s.positions occ with
        | none =>
          dsimp only
          simp only [Bool.false_eq_true, false_iff]
          rintro ⟨hper, hnodup, hdisj⟩
          obtain ⟨-, -, hb, -⟩ := hper s (List.mem_cons_self _ _)
          have hsome : checkPositions s.positions occ = some (s.positions.reverse ++ occ) := by
            rw [checkPositions_eq_some]
            refine ⟨hb, ?_, ?_, rfl⟩
            · rw [List.flatMap_cons, List.nodup_append] at hnodup
              exact hnodup.1
            · intro q hq
              exact hdisj q (by rw [List.flatMap_cons]; exact List.mem_append_left _ hq)
          rw [hcp] at hsome
          exact Option.noConfusion hsome
        | some occ' =>
          dsimp only
          by_cases hcont : validateShipContinuity s.positions = true
          · rw [if_pos hcont, checkShips_eq_true rest occ']
            obtain ⟨hb, hndp, hdisjp, heq⟩ := (checkPositions_eq_some s.positions occ occ').mp hcp
            constructor
            · rintro ⟨hper, hnodup, hdisj⟩
              refine ⟨?_, ?_, ?_⟩
              · intro t ht
                rcases List.mem_cons.mp ht with rfl | ht'
                · exact ⟨by rw [hexp, hlen], by rw [hlen]; exact h0, hb, hcont⟩
                · exact hper t ht'
              · rw [List.flatMap_cons, List.nodup_append]
                refine ⟨hndp, hnodup, ?_⟩
                intro q hq hqrest
                have hq' := hdisj q hqrest
                rw [heq] at hq'
                exact hq' (List.mem_append_left _ (List.mem_reverse.mpr hq))
              · intro q hq
                rw [List.flatMap_cons, List.mem_append] at hq
                rcases hq with hq | hq
                · exact hdisjp q hq
                · intro hocc
                  have hq' := hdisj q hq
                  rw [heq] at hq'
                  exact hq' (List.mem_append_right _ hocc)
            · rintro ⟨hper, hnodup, hdisj⟩
              rw [List.flatMap_cons, List.nodup_append] at hnodup
              refine ⟨?_, hnodup.2.1, ?_⟩
              · intro t ht
                exact hper t (List.mem_cons.mpr (Or.inr ht))
              · intro q hq
                rw [heq, List.mem_append]
                rintro (hrev | hocc)
                · exact hnodup.2.2 (List.mem_reverse.mp hrev) hq
                · exact hdisj q (by rw [List.flatMap_cons]; exact List.mem_append_right _ hq) hocc
          · rw [if_neg hcont]
            simp only [Bool.false_eq_true, false_iff]
            rintro ⟨hper, -, -⟩
            exact hcont (hper s (List.mem_cons_self _ _)).2.2.2

/-! ## Registry lemmas -/

theorem heapGet_id {heap : List PlayerData} {pid : Nat} {p : PlayerData}
    (h : heapGet heap pid = some p) : p.id = pid := by
  simpa using List.find?_some h

theorem gamesGet_id {gs : List GameData} {gid : Nat} {g : GameData}
    (h : gamesGet gs gid = some g) : g.id = gid := by
  simpa using List.find?_some h

theorem gamesGet_insert_self (gs : List GameData) (g : GameData) :
    gamesGet (gamesInsert gs g) g.id = some g := by
  simp [gamesGet, gamesInsert, List.find?_cons]

theorem gamesGet_del_self (gs : List GameData) (gid : Nat) :
    gamesGet (gamesDel gs gid) gid = none := by
  rw [gamesGet, List.find?_eq_none]
  intro g hg
  rcases List.mem_filter.1 hg with ⟨-, hne⟩
  simpa using hne

theorem heapGet_append_fresh {heap : List PlayerData} (pd : PlayerData)
    (h : ∀ q ∈ heap, q.id ≠ pd.id) : heapGet (heap ++ [pd]) pd.id = some pd := by
  rw [heapGet, List.find?_append]
  have hnone : heap.find? (fun q => q.id == pd.id) = none := by
    rw [List.find?_eq_none]
    intro q hq
    simpa using h q hq
  rw [hnone]
  simp [List.find?]

theorem heapGet_append_left {heap : List PlayerData} {pid : Nat} {p : PlayerData}
    (pd : PlayerData) (h : heapGet heap pid = some p) :
    heapGet (heap ++ [pd]) pid = some p := by
  rw [heapGet, List.find?_append]
  rw [heapGet] at h
  rw [h]
  rfl

theorem connGet_set_self (m : List (Nat × Nat)) (ws pid : Nat) :
    connGet (connSet m ws pid) ws = some pid := by
  simp [connGet, connSet, List.find?_cons]

theorem heapSet_mem_id_ws {heap : List PlayerData} {i w : Nat} (pd : PlayerData)
    (h : ∃ q ∈ heap, q.id = i ∧ q.ws = w)
    (hpd : pd.id ≠ i ∨ pd.ws = w) :
    ∃ q ∈ heapSet heap pd, q.id = i ∧ q.ws = w := by
  obtain ⟨q0, hq0, hid, hws⟩ := h
  by_cases hc : q0.id = pd.id
  · have hpid : pd.id = i := hc ▸ hid
    have hpws : pd.ws = w := by
      rcases hpd with h' | h'
      · exact absurd hpid h'
      · exact h'
    refine ⟨pd, ?_, hpid, hpws⟩
    rw [heapSet]
    exact List.mem_map.mpr ⟨q0, hq0, by simp [hc]⟩
  · refine ⟨q0, ?_, hid, hws⟩
    rw [heapSet]
    exact List.mem_map.mpr ⟨q0, hq0, by simp [hc]⟩

/-! ## Claim C5: out-of-turn (or out-of-phase) fire requests -/

/-- C5.  In a session, a fire request from a sender whose index differs from
`currentTurn`, or one arriving while the session is not `in_progress`, is
answered with an error to the sender and leaves the whole server state — in
particular `currentTurn` — unchanged. -/
theorem C5_fire_rejected_without_turn (st : ServerState) (ws : Nat) (c : Int × Int)
    (pid : Nat) (player : PlayerData) (gid : Nat) (game : GameData)
    (hconn : connGet st.connPlayer ws = some pid)
    (hheap : heapGet st.heap pid = some player)
    (hgid : player.gameId = some gid)
    (hgame : gamesGet st.activeGames gid = some game)
    (hrej : game.status ≠ "in_progress" ∨ playerIndexOf game pid ≠ game.currentTurn) :
    (handleFire st ws c).1 = st ∧
    ∃ m : String, (handleFire st ws c).2 = sendError st.openConns ws m := by
  simp only [handleFire, hconn, hheap, hgid, hgame]
  by_cases hs : game.status = "in_progress"
  · have hidx : playerIndexOf game pid ≠ game.currentTurn := by
      rcases hrej with h | h
      · exact absurd hs h
      · exact h
    rw [if_neg (by simp [hs]), if_pos hidx]
    exact ⟨rfl, "Not your turn", rfl⟩
  · rw [if_pos hs]
    exact ⟨rfl, "Game not in progress", rfl⟩

/-- Witness for C5: in `liveState` it is Bob's (index 0) turn; Alice
(connection 10, index 1) fires and is rejected with no state change. -/
theorem C5_fire_rejected_without_turn_witness :
    (handleFire liveState 10 (7, 7)).1 = liveState ∧
    ∃ m : String, (handleFire liveState 10 (7, 7)).2 = sendError liveState.openConns 10 m :=
  C5_fire_rejected_without_turn liveState 10 (7, 7) 0
    (getPlayer liveState.heap 0) 2 liveGame rfl rfl rfl rfl
    (Or.inr (by decide))

/-! ## Claim C9: `handleFire` is a pure relay -/

/-- C9.  Processing a `fire` message never mutates the server state (no
registry, session, queue or turn change, and no record of targeted cells —
so an identical repeat fire is processed identically), and an accepted
in-turn fire only relays `opponent_fire` with the coordinates to the
defender. -/
theorem C9_fire_is_pure_relay (st : ServerState) (ws : Nat) (c : Int × Int) :
    (handleFire st ws c).1 = st ∧
    handleFire (handleFire st ws c).1 ws c = handleFire st ws c ∧
    (∀ pid player gid game,
      connGet st.connPlayer ws = some pid →
      heapGet st.heap pid = some player →
      player.gameId = some gid →
      gamesGet st.activeGames gid = some game →
      game.status = "in_progress" →
      playerIndexOf game pid = game.currentTurn →
      (handleFire st ws c).2 =
        sendMessage st.openConns
          (getPlayer st.heap (otherId game (playerIndexOf game pid))).ws
          (.opponentFire c)) := by
  have hstate : (handleFire st ws c).1 = st := by
    unfold handleFire
    dsimp only
    repeat' split
    all_goals rfl
  refine ⟨hstate, by rw [hstate], ?_⟩
  intro pid player gid game hconn hheap hgid hgame hs ht
  simp only [handleFire, hconn, hheap, hgid, hgame]
  rw [if_neg (by simp [hs]), if_neg (by simp [ht])]

/-- Witness for C9: Bob's accepted in-turn fire in `liveState` leaves the
state unchanged, is idempotent, and only relays to Alice. -/
theorem C9_fire_is_pure_relay_witness :
    (handleFire liveState 20 (3, 3)).1 = liveState ∧
    handleFire (handleFire liveState 20 (3, 3)).1 20 (3, 3) = handleFire liveState 20 (3, 3) ∧
    (handleFire liveState 20 (3, 3)).2 =
      sendMessage liveState.openConns
        (getPlayer liveState.heap (otherId liveGame (playerIndexOf liveGame 1))).ws
        (.opponentFire (3, 3)) :=
  ⟨(C9_fire_is_pure_relay liveState 20 (3, 3)).1,
   (C9_fire_is_pure_relay liveState 20 (3, 3)).2.1,
   (C9_fire_is_pure_relay liveState 20 (3, 3)).2.2 1 (getPlayer liveState.heap 1) 2 liveGame
     rfl rfl rfl rfl rfl rfl⟩

/-! ## `handleFireResult`: the general processing equation -/

/-- For any `fire_result` from a member of an existing session — regardless
of the session status, of whose turn it is, and of the reported result — the
handler relays `shot_result` to the other member, flips `currentTurn`
(`checkAllShipsSunk` being the constant-`false` stub), and announces
`turn_change` to both members. -/
theorem handleFireResult_eq (st : ServerState) (ws : Nat) (c : Int × Int)
    (r : String) (sk : Option String) (pid : Nat) (player : PlayerData)
    (gid : Nat) (game : GameData)
    (hconn : connGet st.connPlayer ws = some pid)
    (hheap : heapGet st.heap pid = some player)
    (hgid : player.gameId = some gid)
    (hgame : gamesGet st.activeGames gid = some game)
    (hidx : playerIndexOf game pid ≠ -1) :
    handleFireResult st ws c r sk =
      ({ st with activeGames :=
           gamesInsert st.activeGames { game with currentTurn := 1 - game.currentTurn } },
       sendMessage st.openConns
           (getPlayer st.heap (otherId game (playerIndexOf game pid))).ws
           (.shotResult c r sk) ++
       sendMessage st.openConns (getPlayer st.heap game.player0).ws
           (.turnChange (0 == 1 - game.currentTurn)) ++
       sendMessage st.openConns (getPlayer st.heap game.player1).ws
           (.turnChange (1 == 1 - game.currentTurn))) := by
  simp only [handleFireResult, hconn, hheap, hgid, hgame, checkAllShipsSunk,
    Bool.and_false, Bool.false_eq_true, if_false]
  rw [if_neg (by simpa using hidx)]

/-! ## Claim C6: a reported miss flips the turn -/

/-- C6.  A `fire_result{result:"miss"}` from a session member flips
`currentTurn` to the other index and emits `turn_change` to both parties;
the payload `isYourTurn` is true exactly for the player whose index equals
the new `currentTurn` (the Boolean-decoding conjuncts), and the flip is
recorded in the session map. -/
theorem C6_miss_flips_turn (st : ServerState) (ws : Nat) (c : Int × Int)
    (sk : Option String) (pid : Nat) (player : PlayerData)
    (gid : Nat) (game : GameData)
    (hconn : connGet st.connPlayer ws = some pid)
    (hheap : heapGet st.heap pid = some player)
    (hgid : player.gameId = some gid)
    (hgame : gamesGet st.activeGames gid = some game)
    (hidx : playerIndexOf game pid ≠ -1)
    (hturn : game.currentTurn = 0 ∨ game.currentTurn = 1)
    (hp0 : (getPlayer st.heap game.player0).ws ∈ st.openConns)
    (hp1 : (getPlayer st.heap game.player1).ws ∈ st.openConns) :
    gamesGet (handleFireResult st ws c "miss" sk).1.activeGames gid =
      some { game with currentTurn := 1 - game.currentTurn } ∧
    1 - game.currentTurn ≠ game.currentTurn ∧
    ((0 : Int) == 1 - game.currentTurn) = (game.currentTurn == 1) ∧
    ((1 : Int) == 1 - game.currentTurn) = (game.currentTurn == 0) ∧
    (handleFireResult st ws c "miss" sk).2 =
      sendMessage st.openConns
          (getPlayer st.heap (otherId game (playerIndexOf game pid))).ws
          (.shotResult c "miss" sk) ++
      [⟨(getPlayer st.heap game.player0).ws, .turnChange (0 == 1 - game.currentTurn)⟩,
       ⟨(getPlayer st.heap game.player1).ws, .turnChange (1 == 1 - game.currentTurn)⟩] := by
  have heq := handleFireResult_eq st ws c "miss" sk pid player gid game
    hconn hheap hgid hgame hidx
  have hid : game.id = gid := gamesGet_id hgame
  refine ⟨?_, ?_, ?_, ?_, ?_⟩
  · rw [heq]
    have := gamesGet_insert_self st.activeGames { game with currentTurn := 1 - game.currentTurn }
    simpa [hid] using this
  · rcases hturn with h | h <;> rw [h] <;> decide
  · rcases hturn with h | h <;> rw [h] <;> decide
  · rcases hturn with h | h <;> rw [h] <;> decide
  · rw [heq]
    simp [sendMessage, hp0, hp1]

/-- Witness for C6: in `liveState` Alice (connection 10) reports a miss; the
turn flips from Bob (index 0) to Alice (index 1) and both are notified. -/
theorem C6_miss_flips_turn_witness :
    gamesGet (handleFireResult liveState 10 (3, 3) "miss" none).1.activeGames 2 =
      some { liveGame with currentTurn := 1 - liveGame.currentTurn } ∧
    1 - liveGame.currentTurn ≠ liveGame.currentTurn ∧
    ((0 : Int) == 1 - liveGame.currentTurn) = (liveGame.currentTurn == 1) ∧
    ((1 : Int) == 1 - liveGame.currentTurn) = (liveGame.currentTurn == 0) ∧
    (handleFireResult liveState 10 (3, 3) "miss" none).2 =
      sendMessage liveState.openConns
          (getPlayer liveState.heap (otherId liveGame (playerIndexOf liveGame 0))).ws
          (.shotResult (3, 3) "miss" none) ++
      [⟨(getPlayer liveState.heap liveGame.player0).ws, .turnChange (0 == 1 - liveGame.currentTurn)⟩,
       ⟨(getPlayer liveState.heap liveGame.player1).ws, .turnChange (1 == 1 - liveGame.currentTurn)⟩] :=
  C6_miss_flips_turn liveState 10 (3, 3) none 0 (getPlayer liveState.heap 0) 2 liveGame
    rfl rfl rfl rfl (by decide) (Or.inl rfl) (by decide) (by decide)

/-! ## Claim C10: `fire_result` is processed without any phase or turn check -/

/-- C10.  Any `fire_result` whose sender is a member of an existing session
is processed unconditionally: `shot_result` is relayed to the other member
and — `checkAllShipsSunk` never detecting a win — `currentTurn` is flipped
and `turn_change` emitted to both members.  No hypothesis constrains the
session status (it may still be `"setup"`), the turn, the reported `result`
string, or any pending shot. -/
theorem C10_fireResult_unchecked (st : ServerState) (ws : Nat) (c : Int × Int)
    (r : String) (sk : Option String) (pid : Nat) (player : PlayerData)
    (gid : Nat) (game : GameData)
    (hconn : connGet st.connPlayer ws = some pid)
    (hheap : heapGet st.heap pid = some player)
    (hgid : player.gameId = some gid)
    (hgame : gamesGet st.activeGames gid = some game)
    (hidx : playerIndexOf game pid ≠ -1) :
    handleFireResult st ws c r sk =
      ({ st with activeGames :=
           gamesInsert st.activeGames { game with currentTurn := 1 - game.currentTurn } },
       sendMessage st.openConns
           (getPlayer st.heap (otherId game (playerIndexOf game pid))).ws
           (.shotResult c r sk) ++
       sendMessage st.openConns (getPlayer st.heap game.player0).ws
           (.turnChange (0 == 1 - game.currentTurn)) ++
       sendMessage st.openConns (getPlayer st.heap game.player1).ws
           (.turnChange (1 == 1 - game.currentTurn))) :=
  handleFireResult_eq st ws c r sk pid player gid game hconn hheap hgid hgame hidx

/-- Witness for C10: in `matchedState` the session status is still `"setup"`,
yet Alice's `fire_result{result:"hit"}` is relayed and flips the turn exactly
as in an `in_progress` session. -/
theorem C10_fireResult_unchecked_witness :
    matchedState.activeGames.map GameData.status = ["setup"] ∧
    handleFireResult matchedState 10 (5, 5) "hit" (some "cruiser") =
      ({ matchedState with
          activeGames :=
            gamesInsert matchedState.activeGames
              { setupGame with currentTurn := 1 - setupGame.currentTurn } },
       sendMessage matchedState.openConns
           (getPlayer matchedState.heap (otherId setupGame (playerIndexOf setupGame 0))).ws
           (.shotResult (5, 5) "hit" (some "cruiser")) ++
       sendMessage matchedState.openConns (getPlayer matchedState.heap setupGame.player0).ws
           (.turnChange (0 == 1 - setupGame.currentTurn)) ++
       sendMessage matchedState.openConns (getPlayer matchedState.heap setupGame.player1).ws
           (.turnChange (1 == 1 - setupGame.currentTurn))) :=
  ⟨rfl,
   C10_fireResult_unchecked matchedState 10 (5, 5) "hit" (some "cruiser") 0
     (getPlayer matchedState.heap 0) 2 setupGame
     rfl rfl rfl rfl (by decide)⟩

/-! ## Claim C1: the win-detection stub never finishes a game -/

/-- C1 (refuting evaluation).  `checkAllShipsSunk` is the constant-`false`
stub, so even a `fire_result{result:"hit", shipSunk:"destroyer"}` that
reports the defender's final ship sunk never drives the session to
`finished` and never produces a `game_end`: in `liveState` the session stays
`in_progress` in the active map and the only envelopes are the `shot_result`
relay and the two `turn_change`s. -/
theorem C1_win_detection_stub :
    (∀ ships ws, checkAllShipsSunk ships ws = false) ∧
    (handleFireResult liveState 10 (3, 3) "hit" (some "destroyer")).1.activeGames =
      [{ liveGame with currentTurn := 1 }] ∧
    (handleFireResult liveState 10 (3, 3) "hit" (some "destroyer")).2 =
      [⟨20, .shotResult (3, 3) "hit" (some "destroyer")⟩,
       ⟨20, .turnChange false⟩, ⟨10, .turnChange true⟩] :=
  ⟨fun _ _ => rfl, rfl, rfl⟩

/-! ## `handleDisconnection`: processing equations -/

/-- Disconnection of a member of a live two-member session: the queue entry
(if any) is erased, the other member is sent
`game_end{reason:"opponent_disconnected"}` with its own name as winner, the
game is deleted, and the connection registry entry is dropped.  The heap of
player records is untouched. -/
theorem handleDisconnection_eq (st : ServerState) (ws : Nat)
    (pid : Nat) (player : PlayerData) (gid : Nat) (game : GameData)
    (hconn : connGet st.connPlayer ws = some pid)
    (hheap : heapGet st.heap pid = some player)
    (hgid : player.gameId = some gid)
    (hgame : gamesGet st.activeGames gid = some game)
    (hne : game.player0 ≠ game.player1)
    (hmem : game.player0 = pid ∨ game.player1 = pid) :
    handleDisconnection st ws =
      ({ st with
          waitingPlayers := st.waitingPlayers.erase pid
          activeGames := gamesDel st.activeGames gid
          connPlayer := connDel st.connPlayer ws },
       sendMessage st.openConns
         (getPlayer st.heap (if game.player0 = pid then game.player1 else game.player0)).ws
         (.gameEnd
           (getPlayer st.heap (if game.player0 = pid then game.player1 else game.player0)).name
           (some "opponent_disconnected"))) := by
  simp only [handleDisconnection, hconn, hheap, hgid, hgame]
  rcases hmem with h0 | h1
  · rw [if_neg (by simp [h0]), if_pos (by rw [← h0]; exact Ne.symm hne), if_pos h0]
  · have hp0 : game.player0 ≠ pid := by rw [← h1]; exact hne
    rw [if_pos hp0, if_neg hp0]

/-- If the sender's `gameId` points at no live game, disconnection sends
nothing (silent queue/registry cleanup). -/
theorem handleDisconnection_dead_game (st : ServerState) (ws : Nat)
    (pid : Nat) (player : PlayerData) (gid : Nat)
    (hconn : connGet st.connPlayer ws = some pid)
    (hheap : heapGet st.heap pid = some player)
    (hgid : player.gameId = some gid)
    (hnone : gamesGet st.activeGames gid = none) :
    (handleDisconnection st ws).2 = [] := by
  simp only [handleDisconnection, hconn, hheap, hgid, hnone]

/-! ## Claim C7: disconnection of an in-progress session member -/

/-- C7.  When one member of an `in_progress` two-member session disconnects,
exactly one envelope is produced: `game_end{reason:"opponent_disconnected"}`
to the remaining member naming that member as winner; the session is removed
from the active map; and a later teardown by any player of the same (now
dead) session sends nothing further. -/
theorem C7_disconnect_teardown (st : ServerState) (ws : Nat)
    (pid : Nat) (player : PlayerData) (gid : Nat) (game : GameData)
    (hconn : connGet st.connPlayer ws = some pid)
    (hheap : heapGet st.heap pid = some player)
    (hgid : player.gameId = some gid)
    (hgame : gamesGet st.activeGames gid = some game)
    (hstatus : game.status = "in_progress")
    (hne : game.player0 ≠ game.player1)
    (hmem : game.player0 = pid ∨ game.player1 = pid)
    (hopen :
      (getPlayer st.heap (if game.player0 = pid then game.player1 else game.player0)).ws
        ∈ st.openConns) :
    (handleDisconnection st ws).2 =
      [⟨(getPlayer st.heap (if game.player0 = pid then game.player1 else game.player0)).ws,
        .gameEnd
          (getPlayer st.heap (if game.player0 = pid then game.player1 else game.player0)).name
          (some "opponent_disconnected")⟩] ∧
    gamesGet (handleDisconnection st ws).1.activeGames gid = none ∧
    (∀ ws₂ pid₂ p₂,
      connGet (handleDisconnection st ws).1.connPlayer ws₂ = some pid₂ →
      heapGet (handleDisconnection st ws).1.heap pid₂ = some p₂ →
      p₂.gameId = some gid →
      (handleDisconnection (handleDisconnection st ws).1 ws₂).2 = []) := by
  have heq := handleDisconnection_eq st ws pid player gid game
    hconn hheap hgid hgame hne hmem
  have hdead : gamesGet (handleDisconnection st ws).1.activeGames gid = none := by
    rw [heq]
    exact gamesGet_del_self st.activeGames gid
  refine ⟨?_, hdead, ?_⟩
  · rw [heq]
    simp [sendMessage, hopen]
  · intro ws₂ pid₂ p₂ h1 h2 h3
    exact handleDisconnection_dead_game _ ws₂ pid₂ p₂ gid h1 h2 h3 hdead

/-- Witness for C7: Alice (connection 10) disconnects from the live game; Bob
gets the single forfeit `game_end`, the game is gone, and Bob's own later
disconnect sends nothing. -/
theorem C7_disconnect_teardown_witness :
    (handleDisconnection liveState 10).2 =
      [⟨(getPlayer liveState.heap
           (if liveGame.player0 = 0 then liveGame.player1 else liveGame.player0)).ws,
        .gameEnd
          (getPlayer liveState.heap
            (if liveGame.player0 = 0 then liveGame.player1 else liveGame.player0)).name
          (some "opponent_disconnected")⟩] ∧
    gamesGet (handleDisconnection liveState 10).1.activeGames 2 = none ∧
    (∀ ws₂ pid₂ p₂,
      connGet (handleDisconnection liveState 10).1.connPlayer ws₂ = some pid₂ →
      heapGet (handleDisconnection liveState 10).1.heap pid₂ = some p₂ →
      p₂.gameId = some 2 →
      (handleDisconnection (handleDisconnection liveState 10).1 ws₂).2 = []) :=
  C7_disconnect_teardown liveState 10 0 (getPlayer liveState.heap 0) 2 liveGame
    rfl rfl rfl rfl rfl (by decide) (Or.inr rfl) (by decide)

/-! ## Claim C4: the `gameId`/live-membership invariant fails at teardown -/

/-- Refutation of C4 at a concrete reachable state: after Alice disconnects
from the live game, no session exists any more, yet the surviving, still
connected Bob (record id 1) keeps the dead game's id in `gameId` — non-null
without membership in any live session, and not reset to null by the
teardown. -/
theorem C4_counterexample :
    (run initialState (setupTrace ++ [.close 10])).1.activeGames = [] ∧
    connGet (run initialState (setupTrace ++ [.close 10])).1.connPlayer 20 = some 1 ∧
    (getPlayer (run initialState (setupTrace ++ [.close 10])).1.heap 1).gameId = some 2 ∧
    some (2 : Nat) ≠ (none : Option Nat) :=
  ⟨rfl, rfl, rfl, by decide⟩

/-- C4 (amended).  Destroying a session by disconnection removes it from the
active map but writes no player record at all: the survivor's `gameId` keeps
the dead session's id instead of becoming null.  (A `gameId` is made non-null
when the player enters a session, but teardown never clears it, so non-null
`gameId` does not imply live membership.) -/
theorem C4_amended_teardown_keeps_gameId (st : ServerState) (ws : Nat)
    (pid : Nat) (player : PlayerData) (gid : Nat) (game : GameData)
    (hconn : connGet st.connPlayer ws = some pid)
    (hheap : heapGet st.heap pid = some player)
    (hgid : player.gameId = some gid)
    (hgame : gamesGet st.activeGames gid = some game)
    (hne : game.player0 ≠ game.player1)
    (hmem : game.player0 = pid ∨ game.player1 = pid) :
    (handleDisconnection st ws).1.heap = st.heap ∧
    gamesGet (handleDisconnection st ws).1.activeGames gid = none := by
  have heq := handleDisconnection_eq st ws pid player gid game
    hconn hheap hgid hgame hne hmem
  rw [heq]
  exact ⟨rfl, gamesGet_del_self st.activeGames gid⟩

/-- Witness for the amended C4 at the live demo session. -/
theorem C4_amended_teardown_keeps_gameId_witness :
    (handleDisconnection liveState 10).1.heap = liveState.heap ∧
    gamesGet (handleDisconnection liveState 10).1.activeGames 2 = none :=
  C4_amended_teardown_keeps_gameId liveState 10 0 (getPlayer liveState.heap 0) 2 liveGame
    rfl rfl rfl rfl (by decide) (Or.inr rfl)

/-! ## Claim C2: matchmaking indices are the opposite of the claim -/

/-- Refutation of C2 at a concrete input: with the player "waiter" (id 0,
connection 10) alone in the queue, a join by "arrival" on connection 20
creates a game whose index 0 is the NEW ARRIVAL (id 1) and whose index 1 is
the dequeued waiter; `turnOrder:"first"` goes to the arrival and the waiter
is told `"second"`, contradicting the claimed waiter-first assignment. -/
theorem C2_counterexample :
    waiterState.waitingPlayers = [0] ∧
    (getPlayer waiterState.heap 0).name = "waiter" ∧
    (handleJoinGame waiterState 20 "arrival").1.activeGames.map
        (fun g => (g.player0, g.player1)) = [(1, 0)] ∧
    (getPlayer (handleJoinGame waiterState 20 "arrival").1.heap 1).name = "arrival" ∧
    (handleJoinGame waiterState 20 "arrival").2 =
      [⟨20, .gameStart 2 "waiter" "first"⟩, ⟨10, .gameStart 2 "arrival" "second"⟩] ∧
    ((handleJoinGame waiterState 20 "arrival").2.filter (fun m => m.dest == 10) ≠
      [⟨10, .gameStart 2 "arrival" "first"⟩]) :=
  ⟨rfl, rfl, rfl, rfl, rfl, by decide⟩

/-- C2 (amended).  A join while the wait queue is non-empty dequeues the
oldest waiting Player and forms a session in which the NEW ARRIVAL has player
index 0 and the waiter has index 1; index 0 still moves first
(`currentTurn = 0`), so the arrival receives `turnOrder:"first"` and the
waiter receives `"second"`. -/
theorem C2_amended_arrival_gets_first (st : ServerState) (ws : Nat) (nm : String)
    (w : Nat) (rest : List Nat) (wd : PlayerData)
    (hq : st.waitingPlayers = w :: rest)
    (hw : heapGet st.heap w = some wd)
    (hfresh : ∀ q ∈ st.heap, q.id < st.nextId) :
    gamesGet (handleJoinGame st ws nm).1.activeGames (st.nextId + 1) =
      some ⟨st.nextId + 1, st.nextId, w, 0, "setup", none⟩ ∧
    (handleJoinGame st ws nm).1.waitingPlayers = rest ∧
    (handleJoinGame st ws nm).2 =
      sendMessage st.openConns ws (.gameStart (st.nextId + 1) wd.name "first") ++
      sendMessage st.openConns wd.ws (.gameStart (st.nextId + 1) nm "second") := by
  have hpd : heapGet (st.heap ++ [⟨st.nextId, nm, ws, none, none, false⟩]) st.nextId =
      some ⟨st.nextId, nm, ws, none, none, false⟩ :=
    heapGet_append_fresh _ (fun q hq' => Nat.ne_of_lt (hfresh q hq'))
  have hwd : heapGet (st.heap ++ [⟨st.nextId, nm, ws, none, none, false⟩]) w = some wd :=
    heapGet_append_left _ hw
  simp only [handleJoinGame, hq, createGame, getPlayer, hpd, hwd, Option.getD_some]
  refine ⟨?_, by trivial, by trivial⟩
  exact gamesGet_insert_self st.activeGames ⟨st.nextId + 1, st.nextId, w, 0, "setup", none⟩

/-- Witness for the amended C2 at `waiterState`. -/
theorem C2_amended_arrival_gets_first_witness :
    gamesGet (handleJoinGame waiterState 20 "arrival").1.activeGames 2 =
      some ⟨2, 1, 0, 0, "setup", none⟩ ∧
    (handleJoinGame waiterState 20 "arrival").1.waitingPlayers = [] ∧
    (handleJoinGame waiterState 20 "arrival").2 =
      sendMessage waiterState.openConns 20 (.gameStart 2 "waiter" "first") ++
      sendMessage waiterState.openConns 10 (.gameStart 2 "arrival" "second") :=
  C2_amended_arrival_gets_first waiterState 20 "arrival" 0 []
    ⟨0, "waiter", 10, none, none, false⟩ rfl rfl (by decide)

/-! ## Claim C8: a second join creates a second Player on the connection -/

/-- Refutation of C8 at a concrete input: connection 10 joins as "a" (record
id 0, queued), then sends a second `join_game` as "b".  A second Player
record (id 1) is created on the same connection, and the matchmaker even
pairs the two records — one connection now owns both members of game 2. -/
theorem C8_counterexample :
    connGet oneJoinState.connPlayer 10 = some 0 ∧
    ((handleJoinGame oneJoinState 10 "b").1.heap.filter (fun q => q.ws == 10)).map
        PlayerData.id = [0, 1] ∧
    (0 : Nat) ≠ 1 ∧
    (handleJoinGame oneJoinState 10 "b").1.activeGames.map
        (fun g => (g.player0, g.player1)) = [(1, 0)] :=
  ⟨rfl, rfl, by decide, rfl⟩

/-- C8 (amended).  A second `join_game` on a connection that already has a
Player record does create a second Player record: the connection's registry
entry is replaced by a fresh record (fresh id), while the old record keeps
existing with the same connection, so two distinct Player records share one
connection. -/
theorem C8_amended_second_join (st : ServerState) (ws : Nat) (nm : String)
    (pid : Nat) (p : PlayerData)
    (hconn : connGet st.connPlayer ws = some pid)
    (hheap : heapGet st.heap pid = some p)
    (hws : p.ws = ws)
    (hfresh : ∀ q ∈ st.heap, q.id < st.nextId)
    (hqueue : ∀ v ∈ st.waitingPlayers, (heapGet st.heap v).isSome = true) :
    connGet (handleJoinGame st ws nm).1.connPlayer ws = some st.nextId ∧
    pid ≠ st.nextId ∧
    (∃ q ∈ (handleJoinGame st ws nm).1.heap, q.id = pid ∧ q.ws = ws) ∧
    (∃ q ∈ (handleJoinGame st ws nm).1.heap, q.id = st.nextId ∧ q.ws = ws) := by
  have hpin : p ∈ st.heap := List.mem_of_find?_eq_some hheap
  have hpid : p.id = pid := heapGet_id hheap
  have hpidlt : pid < st.nextId := hpid ▸ hfresh p hpin
  have hpidne : pid ≠ st.nextId := Nat.ne_of_lt hpidlt
  cases hqs : st.waitingPlayers with
  | nil =>
    simp only [handleJoinGame, hqs]
    refine ⟨connGet_set_self _ _ _, hpidne, ?_, ?_⟩
    · exact ⟨p, List.mem_append_left _ hpin, hpid, hws⟩
    · exact ⟨⟨st.nextId, nm, ws, none, none, false⟩,
        List.mem_append_right _ (List.mem_singleton.mpr rfl), rfl, rfl⟩
  | cons w rest =>
    obtain ⟨r, hr⟩ := Option.isSome_iff_exists.mp
      (hqueue w (by rw [hqs]; exact List.mem_cons_self _ _))
    have hrid : r.id = w := heapGet_id hr
    have hrin : r ∈ st.heap := List.mem_of_find?_eq_some hr
    have hwlt : w < st.nextId := hrid ▸ hfresh r hrin
    have hpd : heapGet (st.heap ++ [⟨st.nextId, nm, ws, none, none, false⟩]) st.nextId =
        some ⟨st.nextId, nm, ws, none, none, false⟩ :=
      heapGet_append_fresh _ (fun q hq' => Nat.ne_of_lt (hfresh q hq'))
    have hrd : heapGet (st.heap ++ [⟨st.nextId, nm, ws, none, none, false⟩]) w = some r :=
      heapGet_append_left _ hr
    simp only [handleJoinGame, hqs, createGame, getPlayer, hpd, hrd, Option.getD_some]
    refine ⟨connGet_set_self _ _ _, hpidne, ?_, ?_⟩
    · -- the old record survives both write-backs
      refine heapSet_mem_id_ws _ ?_ ?_
      · refine heapSet_mem_id_ws _ ?_ ?_
        · exact ⟨p, List.mem_append_left _ hpin, hpid, hws⟩
        · exact Or.inl (Ne.symm hpidne)
      · by_cases hwp : w = pid
        · have : r = p := by
            apply Option.some.inj
            rw [← hr, ← hheap, hwp]
          exact Or.inr (by simpa [this] using hws)
        · exact Or.inl (by simpa [hrid] using hwp)
    · -- the fresh record is present as well (with its gameId written)
      refine heapSet_mem_id_ws _ ?_ ?_
      · refine ⟨⟨st.nextId, nm, ws, some (st.nextId + 1), none, false⟩, ?_, rfl, rfl⟩
        rw [heapSet]
        refine List.mem_map.mpr
          ⟨⟨st.nextId, nm, ws, none, none, false⟩,
           List.mem_append_right _ (List.mem_singleton.mpr rfl), by simp⟩
      · exact Or.inl (by simpa [hrid] using Nat.ne_of_lt hwlt)

/-! ## Claim C3: the placement validator and the prototype-chain leak -/

/-- What `validateShipPlacement` actually accepts: every ship's kind resolves
(through the object literal's prototype chain) to a non-zero length equal to
its cell count, all cells are in bounds, the flattened cell list is
duplicate-free, every ship's body is a contiguous straight run, and each of
the five inventory kinds occurs exactly once — ships of other resolvable
kinds (inherited `Object.prototype` keys) are not counted and may appear
freely. -/
theorem validateShipPlacement_accepts_iff (ships : List Ship) :
    validateShipPlacement ships = true ↔
      ((∀ s ∈ ships,
          expectedShipLength s.type = some s.positions.length ∧
          s.positions.length ≠ 0 ∧
          (∀ p ∈ s.positions, inBounds p = true) ∧
          isStraightRun s.positions) ∧
        (ships.flatMap Ship.positions).Nodup ∧
        countsOk ships = true) := by
  rw [validateShipPlacement, Bool.and_eq_true, checkShips_eq_true]
  constructor
  · rintro ⟨⟨hper, hnodup, -⟩, hc⟩
    refine ⟨fun s hs => ?_, hnodup, hc⟩
    obtain ⟨h1, h2, h3, h4⟩ := hper s hs
    exact ⟨h1, h2, h3, (validateShipContinuity_iff _).1 h4⟩
  · rintro ⟨hper, hnodup, hc⟩
    refine ⟨⟨fun s hs => ?_, hnodup, by simp⟩, hc⟩
    obtain ⟨h1, h2, h3, h4⟩ := hper s hs
    exact ⟨h1, h2, h3, (validateShipContinuity_iff _).2 h4⟩

/-- C3 (refuting evaluation).  The lookup `expectedShips[ship.type]?.length`
falls through to `Object.prototype`: a ship of kind `"constructor"` resolves
to the `Object` function, whose `.length` is 1, and the final count loop
(`Object.entries`, own keys only) never inspects that kind.  So the validator
accepts `phantomFleet` — the five legal ships plus a sixth
`{type:"constructor", positions:[[9,9]]}` — a six-ship fleet whose kind
multiset is not the required five-kind inventory, refuting the claimed
"only if" direction. -/
theorem C3_prototype_chain_leak :
    validateShipPlacement goodFleet = true ∧
    validateShipPlacement phantomFleet = true ∧
    phantomFleet.length = 6 ∧
    ¬ placementSpec phantomFleet :=
  ⟨rfl, rfl, rfl, fun h => absurd h.1 (by decide)⟩

/-- Witness for the amended C8: a second join on connection 10 of
`oneJoinState` leaves two distinct records (ids 0 and 1) sharing the
connection. -/
theorem C8_amended_second_join_witness :
    connGet (handleJoinGame oneJoinState 10 "b").1.connPlayer 10 = some oneJoinState.nextId ∧
    (0 : Nat) ≠ oneJoinState.nextId ∧
    (∃ q ∈ (handleJoinGame oneJoinState 10 "b").1.heap, q.id = 0 ∧ q.ws = 10) ∧
    (∃ q ∈ (handleJoinGame oneJoinState 10 "b").1.heap,
      q.id = oneJoinState.nextId ∧ q.ws = 10) :=
  C8_amended_second_join oneJoinState 10 "b" 0 (getPlayer oneJoinState.heap 0)
    rfl rfl rfl (by decide) (by decide)

end Battleships
